import Mathlib

/-!
Verification of the execution-engine core of the mycroft worker subsystem:
shallow embedding of `execution_state.py`, `team_lead.py`, `orchestrator.py`,
`blocker.py`, `sub_agents.py` and `state/persistence.py`, followed by theorems
settling the spec claims about them.

Python `dict[str, V]` values are embedded as insertion-ordered association
lists with unique keys (`Dict V`); `dict.get` is `dget`, assignment `d[k] = v`
is `dset`.  External effects (wall-clock time, the agent runtime, the ticket
system, file writes) are passed in as explicit parameters or returned as
explicit traces.
-/

namespace Mycroft

/-- Insertion-ordered string-keyed map, the embedding of a Python `dict`. -/
abbrev Dict (α : Type) := List (String × α)

/-- Embedding of `d.get(k)`: the value at the first matching key, if any. -/
def dget {α : Type} : Dict α → String → Option α
  | [], _ => none
  | (k', v) :: rest, k => if k' = k then some v else dget rest k

/-- Embedding of `d[k] = v`: replace the value at the first matching key,
or append a fresh entry when the key is absent. -/
def dset {α : Type} : Dict α → String → α → Dict α
  | [], k, v => [(k, v)]
  | (k', v') :: rest, k, v =>
      if k' = k then (k', v) :: rest else (k', v') :: dset rest k v

/-- The keys of a dictionary, in insertion order. -/
def dkeys {α : Type} (d : Dict α) : List String := d.map Prod.fst

-- ── Data model (execution_state.py) ─────────────────────────

/-- Embedding of `TaskStatus` (execution_state.py). -/
inductive TaskStatus
  | pending
  | in_progress
  | succeeded
  | failed
  | blocked
deriving DecidableEq

/-- Embedding of `SubAgentRecord` (execution_state.py). -/
structure SubAgentRecord where
  agent_type : String
  success : Bool
  output : String := ""
  error : String := ""
deriving DecidableEq

/-- Embedding of `TaskRecord` (execution_state.py). -/
structure TaskRecord where
  task_id : String
  title : String
  service_name : String
  status : TaskStatus := TaskStatus.pending
  pr_url : String := ""
  error : String := ""
  sub_agent_results : List SubAgentRecord := []
  attempts : Nat := 0
  started_at : String := ""
  completed_at : String := ""
deriving DecidableEq

/-- Embedding of `BlockerRecord` (execution_state.py). -/
structure BlockerRecord where
  blocker_id : String
  service_name : String
  question : String
  linear_issue_id : String := ""
  linear_issue_url : String := ""
  resolved : Bool := false
  answer : String := ""
deriving DecidableEq

/-- Embedding of `ServiceRecord` (execution_state.py). -/
structure ServiceRecord where
  service_name : String
  task_ids : List String := []
  completed_task_ids : List String := []
  current_task_id : String := ""
  paused : Bool := false
deriving DecidableEq

/-- Embedding of `ExecutionState` (execution_state.py). -/
structure ExecutionState where
  project_id : String
  started_at : String := ""
  updated_at : String := ""
  tasks : Dict TaskRecord := []
  services : Dict ServiceRecord := []
  blockers : Dict BlockerRecord := []
  total_tasks : Nat := 0
  succeeded : Nat := 0
  failed : Nat := 0
  pending : Nat := 0
deriving DecidableEq

/-- True when the status is counted as pending by `_recount`
(`pending`, `in_progress` or `blocked`). -/
def statusPendingLike (st : TaskStatus) : Bool :=
  st = TaskStatus.pending ∨ st = TaskStatus.in_progress ∨ st = TaskStatus.blocked

/-- Embedding of `ExecutionState._recount`: recompute the four summary
counters from the task statuses. -/
def recount (s : ExecutionState) : ExecutionState :=
  { s with
    succeeded := s.tasks.countP (fun e => e.2.status = TaskStatus.succeeded)
    failed := s.tasks.countP (fun e => e.2.status = TaskStatus.failed)
    pending := s.tasks.countP (fun e => statusPendingLike e.2.status)
    total_tasks := s.tasks.length }

/-- Embedding of `ExecutionState.save`: set `updated_at` to the current time
and flush the whole document; the flush is returned as a one-element write
trace (the document written). -/
def save (now : String) (s : ExecutionState) :
    ExecutionState × List ExecutionState :=
  let s' := { s with updated_at := now }
  (s', [s'])

/-- Embedding of `ExecutionState.load`: the parsed checkpoint document
(given as a value) with counters recomputed. -/
def loadState (doc : ExecutionState) : ExecutionState :=
  recount doc

/-- Embedding of `ExecutionState.checkpoint_task_started` (in-memory only):
mark the task in-progress, stamp `started_at`, bump `attempts`, point the
owning service's `current_task_id` at the task.  Unknown ids are a no-op. -/
def checkpoint_task_started (now : String) (task_id : String)
    (s : ExecutionState) : ExecutionState :=
  match dget s.tasks task_id with
  | none => s
  | some task =>
      let task' := { task with
        status := TaskStatus.in_progress
        started_at := now
        attempts := task.attempts + 1 }
      let tasks' := dset s.tasks task_id task'
      let services' :=
        match dget s.services task.service_name with
        | none => s.services
        | some service =>
            dset s.services task.service_name
              { service with current_task_id := task_id }
      { s with tasks := tasks', services := services' }

/-- Embedding of `ExecutionState.checkpoint_task_completed`: mark the task
succeeded or failed, record completion fields, append to the service's
completed list on success, clear `current_task_id`, recount and flush.
Unknown ids return without mutating or writing. -/
def checkpoint_task_completed (now : String) (task_id : String)
    (success : Bool) (pr_url : String) (error : String)
    (sub_agent_results : Option (List SubAgentRecord))
    (s : ExecutionState) : ExecutionState × List ExecutionState :=
  match dget s.tasks task_id with
  | none => (s, [])
  | some task =>
      let task' := { task with
        status := if success then TaskStatus.succeeded else TaskStatus.failed
        completed_at := now
        pr_url := pr_url
        error := error
        sub_agent_results :=
          -- `if sub_agent_results:` — replaced only when passed and non-empty
          match sub_agent_results with
          | some (r :: rs) => r :: rs
          | _ => task.sub_agent_results }
      let tasks' := dset s.tasks task_id task'
      let services' :=
        match dget s.services task.service_name with
        | none => s.services
        | some service =>
            dset s.services task.service_name
              { service with
                completed_task_ids :=
                  if success ∧ task_id ∉ service.completed_task_ids then
                    service.completed_task_ids ++ [task_id]
                  else service.completed_task_ids
                current_task_id := "" }
      save now (recount { s with tasks := tasks', services := services' })

/-- Embedding of `ExecutionState.checkpoint_blocker_created`: insert a fresh
`BlockerRecord` and flush. -/
def checkpoint_blocker_created (now : String) (blocker_id service_name
    question linear_issue_id linear_issue_url : String)
    (s : ExecutionState) : ExecutionState × List ExecutionState :=
  let record : BlockerRecord :=
    { blocker_id := blocker_id
      service_name := service_name
      question := question
      linear_issue_id := linear_issue_id
      linear_issue_url := linear_issue_url }
  save now { s with blockers := dset s.blockers blocker_id record }

/-- Embedding of `ExecutionState.checkpoint_blocker_resolved`: set the
blocker resolved with its answer and flush.  Unknown ids return without
mutating or writing. -/
def checkpoint_blocker_resolved (now : String) (blocker_id answer : String)
    (s : ExecutionState) : ExecutionState × List ExecutionState :=
  match dget s.blockers blocker_id with
  | none => (s, [])
  | some blocker =>
      let blocker' := { blocker with resolved := true, answer := answer }
      save now { s with blockers := dset s.blockers blocker_id blocker' }

/-- True when an optional task record has status `pending` or `blocked`. -/
def optStatusPendingOrBlocked : Option TaskRecord → Bool
  | some t => t.status = TaskStatus.pending ∨ t.status = TaskStatus.blocked
  | none => false

/-- Embedding of `ExecutionState.get_pending_task_ids`: the service's
`task_ids` filtered to ids present in the task map with status `pending`
or `blocked` (`tid in self.tasks and self.tasks[tid].status in (...)`). -/
def get_pending_task_ids (s : ExecutionState) (service_name : String) :
    List String :=
  match dget s.services service_name with
  | none => []
  | some service =>
      service.task_ids.filter (fun tid => optStatusPendingOrBlocked (dget s.tasks tid))

/-- Embedding of `ExecutionState.get_tasks_needing_requeue`: ids of all
tasks currently marked in-progress, in map order. -/
def get_tasks_needing_requeue (s : ExecutionState) : List String :=
  (s.tasks.filter (fun e => e.2.status = TaskStatus.in_progress)).map Prod.fst

-- ── Recovery (execution_state.py, recover_execution) ────────

/-- The task mutation `recover_execution` applies to an interrupted task:
back to pending with both timestamps cleared. -/
def resetTask (t : TaskRecord) : TaskRecord :=
  { t with
    status := TaskStatus.pending
    started_at := ""
    completed_at := "" }

/-- Clearing a service's `current_task_id`. -/
def clearCurrent (svc : ServiceRecord) : ServiceRecord :=
  { svc with current_task_id := "" }

/-- One iteration of the requeue loop in `recover_execution`: reset the task
to pending, clear its timestamps, and clear its service's `current_task_id`
when it pointed at this task.  The `none` branch is unreachable in the
source (`state.tasks[task_id]` with ids drawn from the same map). -/
def requeueStep (s : ExecutionState) (task_id : String) : ExecutionState :=
  match dget s.tasks task_id with
  | none => s
  | some task =>
      let tasks' := dset s.tasks task_id (resetTask task)
      let services' :=
        match dget s.services task.service_name with
        | none => s.services
        | some service =>
            if service.current_task_id = task_id then
              dset s.services task.service_name (clearCurrent service)
            else s.services
      { s with tasks := tasks', services := services' }

/-- Declarative description of what the requeue loop does to one service
record: its `current_task_id` is cleared exactly when it points at a task
of this service that is being requeued. -/
def clearIfPointed (s : ExecutionState) (L : List String) (n : String)
    (svc : ServiceRecord) : ServiceRecord :=
  match dget s.tasks svc.current_task_id with
  | some t =>
      if svc.current_task_id ∈ L ∧ t.service_name = n then clearCurrent svc
      else svc
  | none => svc

/-- Embedding of `_reconcile_blockers` (execution_state.py): when the ticket
system is configured, each unresolved blocker carrying a ticket id is looked
up for comments; a non-empty comment list marks it resolved with the latest
comment body as the answer.  A failed ticket query (which the source logs
and skips) is modelled by `comments` returning the empty list for that id. -/
def reconcile_blockers (api_key_set : Bool) (comments : String → List String)
    (s : ExecutionState) : ExecutionState :=
  if api_key_set then
    { s with blockers := s.blockers.map (fun e =>
        if ¬e.2.resolved ∧ e.2.linear_issue_id ≠ "" then
          match comments e.2.linear_issue_id with
          | [] => e
          | c :: cs =>
              (e.1, { e.2 with
                resolved := true
                answer := (c :: cs).getLast (List.cons_ne_nil c cs) })
        else e) }
  else s

/-- Embedding of `recover_execution`: load the checkpoint, reset every
in-progress task back to pending (clearing timestamps and the owning
service's `current_task_id`), reconcile unresolved blockers against the
ticket system, recount, and flush. -/
def recover_execution (now : String) (api_key_set : Bool)
    (comments : String → List String) (doc : ExecutionState) :
    ExecutionState × List ExecutionState :=
  let state := loadState doc
  let requeue := get_tasks_needing_requeue state
  let state := requeue.foldl requeueStep state
  let state := reconcile_blockers api_key_set comments state
  save now (recount state)

-- ── Sub-agent dispatcher (sub_agents.py) ────────────────────

/-- Embedding of `SubAgentResult` (sub_agents.py). -/
structure SubAgentResult where
  success : Bool
  output : String
  error : String := ""
deriving DecidableEq

/-- Outcome of one call into the external agent runtime: either the result
text of `query(...)`, or the message of the exception it raised (the
`ImportError` branch is the error `"claude_agent_sdk not installed"`). -/
abbrev RuntimeOutcome := Except String String

/-- Embedding of `run_code_writer` (sub_agents.py): on a successful runtime
call the result text becomes `output` verbatim; on any exception the stage
returns failure with the exception message as `error`. -/
def run_code_writer (runtime : RuntimeOutcome)
    (worktree_path task_prompt claude_md : String) : SubAgentResult :=
  match runtime with
  | Except.ok text => { success := true, output := text }
  | Except.error e => { success := false, output := "", error := e }

/-- Embedding of `run_unit_tester` (sub_agents.py); identical result
handling to `run_code_writer`. -/
def run_unit_tester (runtime : RuntimeOutcome)
    (worktree_path task_prompt claude_md : String) : SubAgentResult :=
  match runtime with
  | Except.ok text => { success := true, output := text }
  | Except.error e => { success := false, output := "", error := e }

/-- Embedding of `run_qa_tester` (sub_agents.py); identical result handling
to `run_code_writer`. -/
def run_qa_tester (runtime : RuntimeOutcome)
    (worktree_path business_spec : String) (test_commands : List String) :
    SubAgentResult :=
  match runtime with
  | Except.ok text => { success := true, output := text }
  | Except.error e => { success := false, output := "", error := e }

-- ── Team Lead (team_lead.py) ────────────────────────────────

/-- Embedding of a task dictionary as consumed by `TeamLead.run` via
`task.get("id", "unknown")` / `task.get("title", "Untitled")` /
`task.get("description", "")`. -/
structure TaskD where
  id : String := "unknown"
  title : String := "Untitled"
  description : String := ""
deriving DecidableEq

/-- Embedding of `TaskResult` (team_lead.py). -/
structure TaskResult where
  task_id : String
  task_title : String
  success : Bool
  code_writer : Option SubAgentResult := none
  unit_tester : Option SubAgentResult := none
  qa_tester : Option SubAgentResult := none
  pr_url : String := ""
  error : String := ""
deriving DecidableEq

/-- The parameters accepted by `TeamLead.__init__` (team_lead.py lines
52-60), in order, `self` omitted. -/
def teamLeadInitParams : List String :=
  ["project_id", "service_name", "repo_path", "claude_md",
   "business_spec", "tasks"]

/-- The keyword arguments passed to `TeamLead(...)` by
`Orchestrator.from_execution_state` (orchestrator.py lines 225-233). -/
def fromExecutionStateLeadKwargs : List String :=
  ["project_id", "service_name", "repo_path", "claude_md",
   "business_spec", "tasks", "execution_state"]

/-- A call into the `ExecutionState` checkpoint interface, as the spec's
Team Lead main loop describes them. -/
inductive CheckpointCall
  | task_started (task_id : String)
  | task_completed (task_id : String) (success : Bool)
deriving DecidableEq

/-- Embedding of the retry loop body of `TeamLead.run` (team_lead.py lines
114-130): attempts are numbered from `k`; the first successful re-execution
is returned, and when the whole budget fails the kept result is the
original `keep`. -/
def retryFrom (exec : TaskD → Nat → TaskResult) (task : TaskD) :
    Nat → Nat → TaskResult → TaskResult
  | _, 0, keep => keep
  | k, n + 1, keep =>
      let result := exec task k
      if result.success then result else retryFrom exec task (k + 1) n keep

/-- Embedding of the per-task part of `TeamLead.run`: execute once, then on
failure retry up to `retry` more times, keeping the first success and
otherwise the original failed result. -/
def processTask (retry : Nat) (exec : TaskD → Nat → TaskResult)
    (task : TaskD) : TaskResult :=
  let first := exec task 0
  if first.success then first else retryFrom exec task 1 retry first

/-- Embedding of the main loop of `TeamLead.run` (team_lead.py lines
86-133).  `exec task k` is the opaque `_execute_task` pipeline outcome of
the k-th execution of `task` (0-based).  The loop appends one result per
task and, when a retry succeeds, replaces the last appended entry.  The
second component is the trace of `ExecutionState` checkpoint calls made by
the loop body: the body (lines 90-133) contains none, so no step appends
to it. -/
def runLoop (retry : Nat) (exec : TaskD → Nat → TaskResult) :
    List TaskD → List TaskResult × List CheckpointCall →
    List TaskResult × List CheckpointCall
  | [], acc => acc
  | task :: rest, (results, calls) =>
      let first := exec task 0
      let results := results ++ [first]
      let results :=
        if first.success then results
        else
          let final := retryFrom exec task 1 retry first
          if final.success then results.dropLast ++ [final] else results
      runLoop retry exec rest (results, calls)

/-- Embedding of `TeamLead.run`: when the lead was cancelled before the
loop, no task runs; otherwise every task is processed in order.  Returns
the result list and the (empty) checkpoint-call trace. -/
def runTeamLead (retry : Nat) (exec : TaskD → Nat → TaskResult)
    (cancelled : Bool) (tasks : List TaskD) :
    List TaskResult × List CheckpointCall :=
  if cancelled then ([], []) else runLoop retry exec tasks ([], [])

-- ── Orchestrator (orchestrator.py) ──────────────────────────

/-- Embedding of `OrchestratorState` (orchestrator.py). -/
structure OrchestratorState where
  total_tasks : Nat := 0
  queued : Nat := 0
  running : Nat := 0
  succeeded : Nat := 0
  failed : Nat := 0
  blocked : Nat := 0
deriving DecidableEq

/-- A Team Lead as constructed by `Orchestrator.from_execution_state`,
recorded by its constructor arguments.  `has_execution_state` notes that
the call site passes `execution_state=...` (an argument the `TeamLead` in
`team_lead.py` does not accept — see the C1/C2 results). -/
structure LeadCtor where
  project_id : String
  service_name : String
  repo_path : String
  claude_md : String
  business_spec : String
  tasks : List TaskD
  has_execution_state : Bool
deriving DecidableEq

/-- Embedding of the orchestrator as far as `from_execution_state` builds
it: registered leads (keyed by service name) and the counter block. -/
structure Orchestrator where
  project_id : String
  leads : Dict LeadCtor := []
  state : OrchestratorState := {}
deriving DecidableEq

/-- Embedding of `Orchestrator.add_team_lead`: register the lead under its
service name and bump `total_tasks` and `queued` by its task count. -/
def add_team_lead (o : Orchestrator) (lead : LeadCtor) : Orchestrator :=
  { o with
    leads := dset o.leads lead.service_name lead
    state := { o.state with
      total_tasks := o.state.total_tasks + lead.tasks.length
      queued := o.state.queued + lead.tasks.length } }

/-- The task dictionaries `from_execution_state` builds for one service:
for each pending id the stored record's `task_id` and `title`, with an
empty description (not stored in the checkpoint). -/
def pendingTaskDicts (s : ExecutionState) (pending_ids : List String) :
    List TaskD :=
  pending_ids.map (fun tid =>
    match dget s.tasks tid with
    | some rec => { id := rec.task_id, title := rec.title, description := "" }
    -- unreachable: `get_pending_task_ids` only returns ids present in the
    -- task map (the source indexes `execution_state.tasks[tid]` directly)
    | none => { id := tid, title := "", description := "" })

/-- The Team Lead constructor call `from_execution_state` makes for one
service, recorded by its arguments (including the `execution_state=...`
keyword the call site passes). -/
def fesLead (s : ExecutionState) (repo_path claude_md business_spec : String)
    (name : String) (pending : List String) : LeadCtor :=
  { project_id := s.project_id
    service_name := name
    repo_path := repo_path
    claude_md := claude_md
    business_spec := business_spec
    tasks := pendingTaskDicts s pending
    has_execution_state := true }

/-- One iteration of the service loop of `from_execution_state`: a service
with no pending ids is skipped; otherwise a Team Lead over exactly the
pending ids is built and registered. -/
def fesStep (s : ExecutionState) (repo_path claude_md business_spec : String)
    (orch : Orchestrator) (svc : String × ServiceRecord) : Orchestrator :=
  match get_pending_task_ids s svc.1 with
  | [] => orch
  | tid :: tids =>
      add_team_lead orch
        (fesLead s repo_path claude_md business_spec svc.1 (tid :: tids))

/-- Embedding of `Orchestrator.from_execution_state` (orchestrator.py lines
191-245): restore `succeeded`, build one Team Lead per service that still
has pending ids (skipping fully completed services), then add the
checkpoint's succeeded and failed counts into `total_tasks`. -/
def from_execution_state (s : ExecutionState)
    (repo_path claude_md business_spec : String) : Orchestrator :=
  let init : Orchestrator :=
    { project_id := s.project_id
      state := { succeeded := s.succeeded } }
  let orch := s.services.foldl (fesStep s repo_path claude_md business_spec)
    init
  { orch with state := { orch.state with
      total_tasks := orch.state.total_tasks + s.succeeded + s.failed } }

-- ── Blocker registry (blocker.py) ───────────────────────────

/-- Embedding of `PendingBlocker` (blocker.py); the `asyncio.Event` is its
`event_set` flag. -/
structure PendingBlocker where
  blocker_id : String
  service_name : String
  question : String
  linear_issue_id : String := ""
  linear_issue_url : String := ""
  event_set : Bool := false
  answer : String := ""
deriving DecidableEq

/-- The process-wide blocker registry `_blockers` (blocker.py). -/
abbrev BlockerRegistry := Dict PendingBlocker

/-- Embedding of `resolve_blocker` (blocker.py lines 125-135): store the
answer and set the event; returns the updated registry and whether the id
was known. -/
def resolve_blocker (reg : BlockerRegistry) (blocker_id answer : String) :
    BlockerRegistry × Bool :=
  match dget reg blocker_id with
  | none => (reg, false)
  | some blocker =>
      let blocker' := { blocker with answer := answer, event_set := true }
      (dset reg blocker_id blocker', true)

-- ── Persistence (state/persistence.py) ──────────────────────

/-- A filesystem operation performed by `atomic_json_write`.  `fsync` is in
the vocabulary so that the spec's claimed write sequence is statable. -/
inductive FsOp
  | mkdirParents (dir : String)
  | createTemp (path : String)
  | writeFile (path : String) (doc : String)
  | fsync (path : String)
  | rename (src : String) (dst : String)
deriving DecidableEq

/-- The directory of a target split into directory and file name. -/
structure FilePath' where
  dir : String
  name : String
deriving DecidableEq

/-- The temporary path `tempfile.mkstemp(dir=path.parent, suffix=".tmp")`
creates: a fresh name inside the target's directory.  `stem` stands for
the random part chosen by the library. -/
def tmpPath (target : FilePath') (stem : String) : String :=
  target.dir ++ "/" ++ stem ++ ".tmp"

/-- Embedding of `atomic_json_write` (state/persistence.py lines 11-20) as
the trace of filesystem operations it performs on the success path: ensure
the parent directory, create a temporary file in that same directory, write
the serialized document into it (the `with` block closes it), and rename it
over the target.  No other operation is performed. -/
def atomic_json_write (target : FilePath') (stem : String) (doc : String) :
    List FsOp :=
  [FsOp.mkdirParents target.dir,
   FsOp.createTemp (tmpPath target stem),
   FsOp.writeFile (tmpPath target stem) doc,
   FsOp.rename (tmpPath target stem) (target.dir ++ "/" ++ target.name)]

/-- The write sequence claimed by the spec for a flush: a write of the full
document to a temporary file in the target's directory, an fsync of that
temporary file, then a rename over the target — nothing else between or
around them except directory preparation. -/
def specAtomicSequence (target : FilePath') (doc : String)
    (trace : List FsOp) : Prop :=
  ∃ tmp : String,
    (trace = [FsOp.writeFile tmp doc, FsOp.fsync tmp,
              FsOp.rename tmp (target.dir ++ "/" ++ target.name)] ∨
     trace = [FsOp.mkdirParents target.dir,
              FsOp.createTemp tmp,
              FsOp.writeFile tmp doc, FsOp.fsync tmp,
              FsOp.rename tmp (target.dir ++ "/" ++ target.name)])

/-- Whether a trace contains an fsync of any path. -/
def hasFsync (trace : List FsOp) : Bool :=
  trace.any (fun op => match op with | FsOp.fsync _ => true | _ => false)

/-- The spec's counter invariant: `total = succeeded + failed + pending`. -/
def counterInv (s : ExecutionState) : Prop :=
  s.total_tasks = s.succeeded + s.failed + s.pending

-- ── Dictionary lemmas ───────────────────────────────────────

theorem dget_dset_self {α : Type} (d : Dict α) (k : String) (v : α) :
    dget (dset d k v) k = some v := by
  induction d with
  | nil => simp [dset, dget]
  | cons e rest ih =>
      by_cases h : e.1 = k
      · simp [dset, dget, h]
      · simp [dset, dget, h, ih]

theorem dget_dset_ne {α : Type} (d : Dict α) (k k' : String) (v : α)
    (h : k ≠ k') : dget (dset d k v) k' = dget d k' := by
  induction d with
  | nil => simp [dset, dget, h]
  | cons e rest ih =>
      by_cases he : e.1 = k
      · simp [dset, dget, he, h]
      · by_cases he' : e.1 = k'
        · simp [dset, dget, he, he', Ne.symm h]
        · simp [dset, dget, he, he', ih]

theorem dget_mem {α : Type} {d : Dict α} {k : String} {v : α}
    (h : dget d k = some v) : (k, v) ∈ d := by
  induction d with
  | nil => simp [dget] at h
  | cons e rest ih =>
      by_cases he : e.1 = k
      · simp [dget, he] at h
        subst he h
        exact List.mem_cons_self e rest
      · simp [dget, he] at h
        exact List.mem_cons_of_mem e (ih h)

theorem mem_dget {α : Type} {d : Dict α} {k : String} {v : α}
    (hnd : (dkeys d).Nodup) (h : (k, v) ∈ d) : dget d k = some v := by
  induction d with
  | nil => simp at h
  | cons e rest ih =>
      simp only [dkeys, List.map_cons, List.nodup_cons] at hnd
      rcases List.mem_cons.mp h with h | h
      · subst h
        simp [dget]
      · have hk : e.1 ≠ k := by
          intro hk
          exact hnd.1 (hk ▸ List.mem_map_of_mem Prod.fst h)
        simp [dget, hk]
        exact ih hnd.2 h

theorem dkeys_dset_of_isSome {α : Type} (d : Dict α) (k : String) (v : α)
    (h : (dget d k).isSome) : dkeys (dset d k v) = dkeys d := by
  induction d with
  | nil => simp [dget] at h
  | cons e rest ih =>
      by_cases he : e.1 = k
      · simp [dset, dkeys, he]
      · simp [dget, he] at h
        simp [dset, dkeys, he] at ih ⊢
        exact ih h

-- ── Counter invariant (claim C3) ────────────────────────────

theorem countP_status_partition (l : List (String × TaskRecord)) :
    l.countP (fun e => e.2.status = TaskStatus.succeeded)
      + l.countP (fun e => e.2.status = TaskStatus.failed)
      + l.countP (fun e => statusPendingLike e.2.status) = l.length := by
  induction l with
  | nil => simp
  | cons e rest ih =>
      simp only [List.countP_cons, List.length_cons]
      cases h : e.2.status <;> simp [statusPendingLike, h] at ih ⊢ <;> omega

theorem counterInv_recount (s : ExecutionState) : counterInv (recount s) := by
  simp only [counterInv, recount]
  exact (countP_status_partition s.tasks).symm

/-- C3: after every checkpoint operation that recomputes counters — a
`checkpoint_task_completed` on a known task id, a `load`, or a
`recover_execution` — the state satisfies
`total_tasks = succeeded + failed + pending`, where succeeded and failed
count those statuses and pending counts pending, in-progress and blocked
tasks. -/
theorem claim_C3_counters_recomputed (s doc : ExecutionState)
    (now task_id pr_url error : String) (success : Bool)
    (sar : Option (List SubAgentRecord)) (api_key_set : Bool)
    (comments : String → List String)
    (h : (dget s.tasks task_id).isSome) :
    counterInv (checkpoint_task_completed now task_id success pr_url error sar s).1
      ∧ counterInv (loadState doc)
      ∧ counterInv (recover_execution now api_key_set comments doc).1 := by
  refine ⟨?_, counterInv_recount doc, ?_⟩
  · rcases Option.isSome_iff_exists.mp h with ⟨task, htask⟩
    simp only [checkpoint_task_completed, htask, save]
    exact counterInv_recount _
  · simp only [recover_execution, save]
    exact counterInv_recount _

/-- Witness for C3 at a concrete one-task state. -/
theorem claim_C3_counters_recomputed_witness :
    counterInv (checkpoint_task_completed "T1" "t1" true "" ""
      none { project_id := "p",
             tasks := [("t1", { task_id := "t1", title := "a",
                                service_name := "auth" })] }).1 := by
  have h := claim_C3_counters_recomputed
    { project_id := "p",
      tasks := [("t1", { task_id := "t1", title := "a",
                         service_name := "auth" })] }
    { project_id := "p" } "T1" "t1" "" "" true none true (fun _ => [])
    (by decide)
  exact h.1

-- ── Pending task ids (claim C7) ─────────────────────────────

/-- C7: on a state satisfying the referential invariant, the pending-ids
query returns the ordered subsequence of the service's task-id list
consisting of exactly the ids whose task status is pending or blocked. -/
theorem claim_C7_pending_ids (s : ExecutionState) (name : String)
    (svc : ServiceRecord) (hs : dget s.services name = some svc)
    (href : ∀ tid ∈ svc.task_ids, (dget s.tasks tid).isSome) :
    get_pending_task_ids s name
        = svc.task_ids.filter
            (fun tid => optStatusPendingOrBlocked (dget s.tasks tid))
      ∧ (get_pending_task_ids s name).Sublist svc.task_ids
      ∧ ∀ tid, tid ∈ get_pending_task_ids s name ↔
          tid ∈ svc.task_ids ∧ ∃ t, dget s.tasks tid = some t ∧
            (t.status = TaskStatus.pending ∨ t.status = TaskStatus.blocked) := by
  have heq : get_pending_task_ids s name
      = svc.task_ids.filter
          (fun tid => optStatusPendingOrBlocked (dget s.tasks tid)) := by
    simp [get_pending_task_ids, hs]
  refine ⟨heq, heq ▸ List.filter_sublist _, ?_⟩
  intro tid
  rw [heq, List.mem_filter]
  constructor
  · rintro ⟨hmem, hopt⟩
    refine ⟨hmem, ?_⟩
    rcases Option.isSome_iff_exists.mp (href tid hmem) with ⟨t, ht⟩
    rw [ht] at hopt
    simp [optStatusPendingOrBlocked] at hopt
    exact ⟨t, ht, hopt⟩
  · rintro ⟨hmem, t, ht, hst⟩
    refine ⟨hmem, ?_⟩
    rw [ht]
    simp [optStatusPendingOrBlocked]
    exact hst

/-- Witness for C7 at a concrete two-task state: `t1` succeeded, `t2`
pending, so only `t2` is returned. -/
theorem claim_C7_pending_ids_witness :
    get_pending_task_ids
        { project_id := "p",
          tasks := [("t1", { task_id := "t1", title := "a",
                             service_name := "auth",
                             status := TaskStatus.succeeded }),
                    ("t2", { task_id := "t2", title := "b",
                             service_name := "auth" })],
          services := [("auth", { service_name := "auth",
                                  task_ids := ["t1", "t2"] })] } "auth"
      = ["t2"] := by
  have h := claim_C7_pending_ids
    { project_id := "p",
      tasks := [("t1", { task_id := "t1", title := "a",
                         service_name := "auth",
                         status := TaskStatus.succeeded }),
                ("t2", { task_id := "t2", title := "b",
                         service_name := "auth" })],
      services := [("auth", { service_name := "auth",
                              task_ids := ["t1", "t2"] })] }
    "auth" { service_name := "auth", task_ids := ["t1", "t2"] }
    (by decide) (by decide)
  rw [h.1]
  decide

-- ── Unknown-id checkpoints are no-ops (claim C10) ───────────

/-- C10: on an id absent from the corresponding mapping,
`checkpoint_task_started`, `checkpoint_task_completed` and
`checkpoint_blocker_resolved` leave the state unchanged, and the latter
two return without flushing anything to disk (empty write trace). -/
theorem claim_C10_unknown_id_noop (s : ExecutionState)
    (now task_id blocker_id pr_url error answer : String) (success : Bool)
    (sar : Option (List SubAgentRecord))
    (h1 : dget s.tasks task_id = none)
    (h2 : dget s.blockers blocker_id = none) :
    checkpoint_task_started now task_id s = s
      ∧ checkpoint_task_completed now task_id success pr_url error sar s
          = (s, [])
      ∧ checkpoint_blocker_resolved now blocker_id answer s = (s, []) := by
  refine ⟨?_, ?_, ?_⟩
  · simp [checkpoint_task_started, h1]
  · simp [checkpoint_task_completed, h1]
  · simp [checkpoint_blocker_resolved, h2]

/-- Witness for C10 at a concrete state with no tasks and no blockers. -/
theorem claim_C10_unknown_id_noop_witness :
    checkpoint_task_started "T1" "tX" { project_id := "p" }
        = { project_id := "p" }
      ∧ checkpoint_task_completed "T1" "tX" true "" "" none
          { project_id := "p" } = ({ project_id := "p" }, [])
      ∧ checkpoint_blocker_resolved "T1" "bX" "ans" { project_id := "p" }
          = ({ project_id := "p" }, []) :=
  claim_C10_unknown_id_noop { project_id := "p" } "T1" "tX" "bX" "" "" "ans"
    true none (by decide) (by decide)

-- ── Recovery resets in-progress tasks (claim C4) ────────────

theorem requeueStep_tasks (s : ExecutionState) (t k : String) :
    dget (requeueStep s t).tasks k =
      if k = t then (dget s.tasks t).map resetTask else dget s.tasks k := by
  cases h : dget s.tasks t with
  | none =>
      by_cases hk : k = t <;> simp [requeueStep, h, hk]
  | some task =>
      by_cases hk : k = t
      · subst hk
        simp [requeueStep, h, dget_dset_self]
      · simp [requeueStep, h, hk, dget_dset_ne _ _ _ _ (Ne.symm hk)]

theorem fold_requeue_tasks (L : List String) (s : ExecutionState)
    (hL : L.Nodup) (k : String) :
    dget (L.foldl requeueStep s).tasks k =
      if k ∈ L then (dget s.tasks k).map resetTask else dget s.tasks k := by
  induction L generalizing s with
  | nil => simp
  | cons t L' ih =>
      have htL' : t ∉ L' := (List.nodup_cons.mp hL).1
      have hnd' : L'.Nodup := (List.nodup_cons.mp hL).2
      simp only [List.foldl_cons]
      rw [ih _ hnd', requeueStep_tasks]
      by_cases hk : k = t
      · subst hk
        simp [htL']
      · simp [hk, List.mem_cons]

theorem fold_requeue_services (L : List String) (s : ExecutionState)
    (hL : L.Nodup) (n : String) :
    dget (L.foldl requeueStep s).services n =
      (dget s.services n).map (clearIfPointed s L n) := by
  induction L generalizing s with
  | nil =>
      cases h : dget s.services n with
      | none => simp [h]
      | some svc =>
          simp only [List.foldl_nil, h, Option.map_some']
          unfold clearIfPointed
          cases hdg : dget s.tasks svc.current_task_id <;> simp
  | cons t L' ih =>
      have htL' : t ∉ L' := (List.nodup_cons.mp hL).1
      have hnd' : L'.Nodup := (List.nodup_cons.mp hL).2
      simp only [List.foldl_cons]
      rw [ih _ hnd']
      cases h : dget s.tasks t with
      | none =>
          have hstep : requeueStep s t = s := by simp [requeueStep, h]
          rw [hstep]
          cases hsv : dget s.services n with
          | none => rfl
          | some svc =>
              simp only [Option.map_some']
              by_cases hc : svc.current_task_id = t
              · simp [clearIfPointed, hc, h]
              · simp [clearIfPointed, List.mem_cons, hc]
      | some task =>
          cases hsv : dget s.services n with
          | none =>
              have hstep : dget (requeueStep s t).services n = none := by
                simp only [requeueStep, h]
                cases hsv0 : dget s.services task.service_name with
                | none => simpa using hsv
                | some svc₀ =>
                    by_cases hc : svc₀.current_task_id = t
                    · have hne : task.service_name ≠ n := by
                        intro he
                        rw [he, hsv] at hsv0
                        cases hsv0
                      simp [hc, dget_dset_ne _ _ _ _ hne, hsv]
                    · simpa [hc] using hsv
              rw [hstep]
              rfl
          | some svc =>
              by_cases hmain : task.service_name = n ∧ svc.current_task_id = t
              · obtain ⟨hn, hc⟩ := hmain
                have hstep : dget (requeueStep s t).services n
                    = some (clearCurrent svc) := by
                  simp only [requeueStep, h]
                  rw [hn] at *
                  simp [hsv, hc, dget_dset_self]
                rw [hstep]
                have hrhs : clearIfPointed s (t :: L') n svc
                    = clearCurrent svc := by
                  simp [clearIfPointed, hc, h, hn]
                have hlhs : clearIfPointed (requeueStep s t) L' n
                    (clearCurrent svc) = clearCurrent svc := by
                  unfold clearIfPointed
                  cases hdg : dget (requeueStep s t).tasks
                      (clearCurrent svc).current_task_id with
                  | none => rfl
                  | some tt =>
                      by_cases hcc : (clearCurrent svc).current_task_id ∈ L'
                          ∧ tt.service_name = n
                      · simp [hcc, clearCurrent]
                      · simp [hcc]
                rw [Option.map_some', Option.map_some', hlhs, hrhs]
              · have hstep : dget (requeueStep s t).services n = some svc := by
                  simp only [requeueStep, h]
                  cases hsv0 : dget s.services task.service_name with
                  | none => simpa using hsv
                  | some svc₀ =>
                      by_cases hc : svc₀.current_task_id = t
                      · by_cases hn : task.service_name = n
                        · exfalso
                          apply hmain
                          refine ⟨hn, ?_⟩
                          rw [hn, hsv] at hsv0
                          cases hsv0
                          exact hc
                        · simp [hc, dget_dset_ne _ _ _ _ hn, hsv]
                      · simpa [hc] using hsv
                rw [hstep, Option.map_some', Option.map_some']
                by_cases hc : svc.current_task_id = t
                · have hn : task.service_name ≠ n := fun he => hmain ⟨he, hc⟩
                  have hdg' : dget (requeueStep s t).tasks svc.current_task_id
                      = some (resetTask task) := by
                    rw [hc, requeueStep_tasks]
                    simp [h]
                  unfold clearIfPointed
                  rw [hdg', hc, h]
                  simp [htL', hn, resetTask]
                · have hdg' : dget (requeueStep s t).tasks svc.current_task_id
                      = dget s.tasks svc.current_task_id := by
                    rw [requeueStep_tasks]
                    simp [hc]
                  unfold clearIfPointed
                  rw [hdg']
                  cases hdg : dget s.tasks svc.current_task_id with
                  | none => rfl
                  | some tt => simp [List.mem_cons, hc]

theorem mem_requeue_iff (s : ExecutionState)
    (hnd : (dkeys s.tasks).Nodup) (tid : String) (t : TaskRecord)
    (ht : dget s.tasks tid = some t) :
    tid ∈ get_tasks_needing_requeue s ↔
      t.status = TaskStatus.in_progress := by
  unfold get_tasks_needing_requeue
  simp only [List.mem_map, List.mem_filter]
  constructor
  · rintro ⟨⟨k, tt⟩, ⟨hmem, hst⟩, hfst⟩
    simp only at hfst
    subst hfst
    have hg := mem_dget hnd hmem
    rw [ht] at hg
    cases hg
    simpa using hst
  · intro hst
    exact ⟨(tid, t), ⟨dget_mem ht, by simpa using hst⟩, rfl⟩

theorem requeue_nodup (s : ExecutionState)
    (hnd : (dkeys s.tasks).Nodup) :
    (get_tasks_needing_requeue s).Nodup :=
  hnd.sublist (List.Sublist.map Prod.fst (List.filter_sublist s.tasks))

theorem recount_tasks (s : ExecutionState) : (recount s).tasks = s.tasks :=
  rfl

theorem recount_services (s : ExecutionState) :
    (recount s).services = s.services := rfl

theorem reconcile_blockers_tasks (b : Bool) (c : String → List String)
    (s : ExecutionState) : (reconcile_blockers b c s).tasks = s.tasks := by
  unfold reconcile_blockers
  split <;> rfl

theorem reconcile_blockers_services (b : Bool) (c : String → List String)
    (s : ExecutionState) :
    (reconcile_blockers b c s).services = s.services := by
  unfold reconcile_blockers
  split <;> rfl

/-- C4: recovery sets every in-progress task back to pending with cleared
timestamps, clears the owning service's `current_task_id` when it pointed
at that task, and changes the status of no task of any other status. -/
theorem claim_C4_recover_resets (doc : ExecutionState)
    (now : String) (api_key_set : Bool) (comments : String → List String)
    (hnd : (dkeys doc.tasks).Nodup) (tid : String) (t : TaskRecord)
    (ht : dget doc.tasks tid = some t) :
    (t.status = TaskStatus.in_progress →
        dget (recover_execution now api_key_set comments doc).1.tasks tid
          = some (resetTask t)
        ∧ ∀ svc, dget doc.services t.service_name = some svc →
            svc.current_task_id = tid →
            dget (recover_execution now api_key_set comments doc).1.services
                t.service_name = some (clearCurrent svc))
      ∧ (t.status ≠ TaskStatus.in_progress →
          dget (recover_execution now api_key_set comments doc).1.tasks tid
            = some t) := by
  have hload_tasks : (loadState doc).tasks = doc.tasks := rfl
  have hload_services : (loadState doc).services = doc.services := rfl
  have hrq_nd : (get_tasks_needing_requeue (loadState doc)).Nodup := by
    apply requeue_nodup
    rw [hload_tasks]
    exact hnd
  have hfinal_tasks :
      (recover_execution now api_key_set comments doc).1.tasks
        = ((get_tasks_needing_requeue (loadState doc)).foldl requeueStep
            (loadState doc)).tasks := by
    simp only [recover_execution, save]
    rw [recount_tasks, reconcile_blockers_tasks]
  have hfinal_services :
      (recover_execution now api_key_set comments doc).1.services
        = ((get_tasks_needing_requeue (loadState doc)).foldl requeueStep
            (loadState doc)).services := by
    simp only [recover_execution, save]
    rw [recount_services, reconcile_blockers_services]
  have hmem := mem_requeue_iff (loadState doc)
    (by rw [hload_tasks]; exact hnd) tid t (by rw [hload_tasks]; exact ht)
  constructor
  · intro hst
    have htid_mem : tid ∈ get_tasks_needing_requeue (loadState doc) :=
      hmem.mpr hst
    constructor
    · rw [hfinal_tasks, fold_requeue_tasks _ _ hrq_nd]
      rw [hload_tasks]
      simp [htid_mem, ht]
    · intro svc hsvc hcur
      rw [hfinal_services, fold_requeue_services _ _ hrq_nd]
      rw [hload_services, hsvc]
      simp only [Option.map_some']
      unfold clearIfPointed
      rw [hcur, hload_tasks, ht]
      simp [htid_mem]
  · intro hst
    have htid_nmem : tid ∉ get_tasks_needing_requeue (loadState doc) :=
      fun hc => hst (hmem.mp hc)
    rw [hfinal_tasks, fold_requeue_tasks _ _ hrq_nd]
    rw [hload_tasks]
    simp [htid_nmem, ht]

/-- Witness for C4: a checkpoint with `t1` in-progress (pointed at by its
service) and `t2` succeeded; recovery resets `t1` and leaves `t2` alone. -/
theorem claim_C4_recover_resets_witness :
    (dget (recover_execution "T2" false (fun _ => [])
        { project_id := "p",
          tasks := [("t1", { task_id := "t1", title := "a",
                             service_name := "auth",
                             status := TaskStatus.in_progress,
                             started_at := "T0" }),
                    ("t2", { task_id := "t2", title := "b",
                             service_name := "auth",
                             status := TaskStatus.succeeded })],
          services := [("auth", { service_name := "auth",
                                  task_ids := ["t1", "t2"],
                                  completed_task_ids := ["t2"],
                                  current_task_id := "t1" })] }).1.tasks "t1"
      = some { task_id := "t1", title := "a", service_name := "auth",
               status := TaskStatus.pending })
    ∧ (dget (recover_execution "T2" false (fun _ => [])
        { project_id := "p",
          tasks := [("t1", { task_id := "t1", title := "a",
                             service_name := "auth",
                             status := TaskStatus.in_progress,
                             started_at := "T0" }),
                    ("t2", { task_id := "t2", title := "b",
                             service_name := "auth",
                             status := TaskStatus.succeeded })],
          services := [("auth", { service_name := "auth",
                                  task_ids := ["t1", "t2"],
                                  completed_task_ids := ["t2"],
                                  current_task_id := "t1" })] }).1.services
        "auth"
      = some { service_name := "auth", task_ids := ["t1", "t2"],
               completed_task_ids := ["t2"], current_task_id := "" }) := by
  have h := claim_C4_recover_resets
    { project_id := "p",
      tasks := [("t1", { task_id := "t1", title := "a",
                         service_name := "auth",
                         status := TaskStatus.in_progress,
                         started_at := "T0" }),
                ("t2", { task_id := "t2", title := "b",
                         service_name := "auth",
                         status := TaskStatus.succeeded })],
      services := [("auth", { service_name := "auth",
                              task_ids := ["t1", "t2"],
                              completed_task_ids := ["t2"],
                              current_task_id := "t1" })] }
    "T2" false (fun _ => []) (by decide) "t1"
    { task_id := "t1", title := "a", service_name := "auth",
      status := TaskStatus.in_progress, started_at := "T0" }
    (by decide)
  obtain ⟨h1, h2⟩ := (h.1 rfl)
  refine ⟨h1, ?_⟩
  exact h2 { service_name := "auth", task_ids := ["t1", "t2"],
             completed_task_ids := ["t2"], current_task_id := "t1" }
    (by decide) rfl

-- ── Team Lead retry semantics (claims C6, C1) ───────────────

theorem retryFrom_not_success (exec : TaskD → Nat → TaskResult)
    (t : TaskD) :
    ∀ (n k : Nat) (keep : TaskResult),
      (retryFrom exec t k n keep).success = false →
      retryFrom exec t k n keep = keep := by
  intro n
  induction n with
  | zero => intro k keep _; rfl
  | succ n ih =>
      intro k keep h
      by_cases hr : (exec t k).success
      · rw [retryFrom, if_pos hr] at h ⊢
        rw [h] at hr
        cases hr
      · rw [retryFrom, if_neg hr] at h ⊢
        exact ih (k + 1) keep h

theorem retryFrom_first_success (exec : TaskD → Nat → TaskResult)
    (t : TaskD) (k : Nat) (hk : (exec t k).success = true) :
    ∀ (n j : Nat) (keep : TaskResult), j ≤ k → k < j + n →
      (∀ i, j ≤ i → i < k → (exec t i).success = false) →
      retryFrom exec t j n keep = exec t k := by
  intro n
  induction n with
  | zero => intro j keep hjk hkn _; omega
  | succ n ih =>
      intro j keep hjk hkn hfail
      by_cases hjeq : j = k
      · subst hjeq
        rw [retryFrom, if_pos hk]
      · have hjlt : j < k := lt_of_le_of_ne hjk hjeq
        have hj : (exec t j).success = false := hfail j le_rfl hjlt
        rw [retryFrom, if_neg (by simp [hj])]
        exact ih (j + 1) keep hjlt (by omega)
          (fun i hi hik => hfail i (by omega) hik)

theorem runLoop_eq_map (retry : Nat) (exec : TaskD → Nat → TaskResult) :
    ∀ (tasks : List TaskD) (results : List TaskResult)
      (calls : List CheckpointCall),
      runLoop retry exec tasks (results, calls)
        = (results ++ tasks.map (processTask retry exec), calls) := by
  intro tasks
  induction tasks with
  | nil => intro results calls; simp [runLoop]
  | cons t rest ih =>
      intro results calls
      rw [runLoop]
      by_cases hf : (exec t 0).success
      · rw [if_pos hf, ih]
        simp [processTask, hf]
      · rw [if_neg hf]
        by_cases hfin : (retryFrom exec t 1 retry (exec t 0)).success
        · rw [if_pos hfin, List.dropLast_concat, ih]
          simp [processTask, hf]
        · rw [if_neg hfin, ih]
          have hkeep := retryFrom_not_success exec t retry 1 (exec t 0)
            (Bool.eq_false_iff.mpr hfin)
          simp [processTask, hf, hkeep]

theorem runLoop_calls (retry : Nat) (exec : TaskD → Nat → TaskResult)
    (tasks : List TaskD) (results : List TaskResult)
    (calls : List CheckpointCall) :
    (runLoop retry exec tasks (results, calls)).2 = calls := by
  rw [runLoop_eq_map]

/-- C1: the Team Lead in the source makes no `ExecutionState` checkpoint
calls at all — the trace of `task_started` / `task_completed` calls of any
`run()` is empty — and its constructor does not even accept the
`execution_state` argument that `Orchestrator.from_execution_state` (and
the repository's own tests) pass to it. -/
theorem claim_C1_checkpoints_never_called :
    (∀ (retry : Nat) (exec : TaskD → Nat → TaskResult) (cancelled : Bool)
        (tasks : List TaskD),
        (runTeamLead retry exec cancelled tasks).2 = [])
      ∧ "execution_state" ∉ teamLeadInitParams
      ∧ "execution_state" ∈ fromExecutionStateLeadKwargs := by
  refine ⟨?_, by decide, by decide⟩
  intro retry exec cancelled tasks
  unfold runTeamLead
  by_cases hc : cancelled
  · simp [hc]
  · simp only [hc, if_false, Bool.false_eq_true]
    exact runLoop_calls retry exec tasks [] []

/-- C6: `run()` returns exactly one TaskResult per task (positionally, the
per-task outcome); when the first execution fails and attempt `k ≤
retry_count` is the first success, that successful result is the one kept
(it replaced the failed one); when every attempt fails the single kept
result is the original failure. -/
theorem claim_C6_retry_replaces_result (retry k : Nat)
    (exec : TaskD → Nat → TaskResult) (t : TaskD) (tasks : List TaskD)
    (h0 : ∀ j, j < k → (exec t j).success = false)
    (hk : (exec t k).success = true) (h1 : 1 ≤ k) (hr : k ≤ retry) :
    (runTeamLead retry exec false tasks).1
        = tasks.map (processTask retry exec)
      ∧ processTask retry exec t = exec t k
      ∧ ∀ t' : TaskD, (∀ j, j ≤ retry → (exec t' j).success = false) →
          processTask retry exec t' = exec t' 0 := by
  refine ⟨?_, ?_, ?_⟩
  · unfold runTeamLead
    rw [if_neg (by simp), runLoop_eq_map]
    simp
  · have hf : (exec t 0).success = false := h0 0 h1
    unfold processTask
    rw [if_neg (by simp [hf])]
    exact retryFrom_first_success exec t k hk retry 1 (exec t 0) h1
      (by omega) (fun i hi hik => h0 i hik)
  · intro t' hfail
    have hf : (exec t' 0).success = false := hfail 0 (Nat.zero_le retry)
    unfold processTask
    rw [if_neg (by simp [hf])]
    apply retryFrom_not_success
    by_cases hs : (retryFrom exec t' 1 retry (exec t' 0)).success
    · exfalso
      -- a successful retryFrom result is one of the attempts 1..retry,
      -- all of which fail by hypothesis
      have : ∀ (n j : Nat) (keep : TaskResult),
          (∀ i, j ≤ i → i < j + n → (exec t' i).success = false) →
          keep.success = false →
          (retryFrom exec t' j n keep).success = false := by
        intro n
        induction n with
        | zero => intro j keep _ hkeep; exact hkeep
        | succ n ih =>
            intro j keep hall hkeep
            rw [retryFrom]
            by_cases hj : (exec t' j).success
            · rw [hall j le_rfl (by omega)] at hj
              cases hj
            · rw [if_neg hj]
              exact ih (j + 1) keep
                (fun i hi hilt => hall i (by omega) (by omega)) hkeep
      rw [this retry 1 (exec t' 0)
        (fun i hi hilt => hfail i (by omega)) hf] at hs
      cases hs
    · exact Bool.eq_false_iff.mpr hs

/-- Witness for C6: a single task failing on attempt 0 and succeeding on
attempt 1 with `retry_count = 1` yields exactly one, successful, result. -/
theorem claim_C6_retry_replaces_result_witness :
    (runTeamLead 1
        (fun td j => { task_id := td.id, task_title := td.title,
                       success := decide (j = 1) })
        false [{ id := "t1", title := "a" }]).1
      = [{ task_id := "t1", task_title := "a", success := true }] := by
  have h := claim_C6_retry_replaces_result 1 1
    (fun td j => { task_id := td.id, task_title := td.title,
                   success := decide (j = 1) })
    { id := "t1", title := "a" } [{ id := "t1", title := "a" }]
    (fun j hj => by
      have hj0 : j = 0 := Nat.lt_one_iff.mp hj
      subst hj0
      rfl)
    (by decide) (by decide) (by decide)
  rw [h.1]
  simp only [List.map_cons, List.map_nil]
  rw [h.2.1]
  rfl

-- ── Recovery constructor (claim C2) ─────────────────────────

theorem dset_append {α : Type} (d : Dict α) (k : String) (v : α)
    (h : dget d k = none) : dset d k v = d ++ [(k, v)] := by
  induction d with
  | nil => rfl
  | cons e rest ih =>
      by_cases he : e.1 = k
      · simp [dget, he] at h
      · simp only [dget, he, if_false] at h
        simp [dset, he, ih h]

theorem dget_append_left_none {α : Type} (d d' : Dict α) (k : String)
    (h : dget d k = none) : dget (d ++ d') k = dget d' k := by
  induction d with
  | nil => rfl
  | cons e rest ih =>
      by_cases he : e.1 = k
      · simp [dget, he] at h
      · simp only [dget, he, if_false] at h
        simp only [List.cons_append, dget, he, if_false]
        exact ih h

theorem pendingTaskDicts_length (s : ExecutionState) (ids : List String) :
    (pendingTaskDicts s ids).length = ids.length := by
  simp [pendingTaskDicts]

theorem pendingTaskDicts_ids (s : ExecutionState) (ids : List String)
    (hkey : ∀ e ∈ s.tasks, e.2.task_id = e.1) :
    (pendingTaskDicts s ids).map TaskD.id = ids := by
  induction ids with
  | nil => rfl
  | cons tid rest ih =>
      simp only [pendingTaskDicts, List.map_cons] at ih ⊢
      cases h : dget s.tasks tid with
      | none => simpa [h] using ih
      | some rec =>
          have hid : rec.task_id = tid := hkey (tid, rec) (dget_mem h)
          simpa [h, hid] using ih

theorem fes_fold (s : ExecutionState)
    (repo_path claude_md business_spec : String) :
    ∀ (svcs : List (String × ServiceRecord)) (orch₀ : Orchestrator),
      (svcs.map Prod.fst).Nodup →
      (∀ e ∈ svcs, dget orch₀.leads e.1 = none) →
      (svcs.foldl (fesStep s repo_path claude_md business_spec) orch₀).leads
          = orch₀.leads ++
            (svcs.filter
                (fun e => !(get_pending_task_ids s e.1).isEmpty)).map
              (fun e => (e.1, fesLead s repo_path claude_md business_spec e.1
                (get_pending_task_ids s e.1)))
        ∧ (svcs.foldl (fesStep s repo_path claude_md business_spec)
              orch₀).state.total_tasks
            = orch₀.state.total_tasks +
              (svcs.map (fun e => (get_pending_task_ids s e.1).length)).sum
        ∧ (svcs.foldl (fesStep s repo_path claude_md business_spec)
              orch₀).state.queued
            = orch₀.state.queued +
              (svcs.map (fun e => (get_pending_task_ids s e.1).length)).sum
        ∧ (svcs.foldl (fesStep s repo_path claude_md business_spec)
              orch₀).state.succeeded = orch₀.state.succeeded := by
  intro svcs
  induction svcs with
  | nil => intro orch₀ _ _; simp
  | cons e rest ih =>
      intro orch₀ hnd hdisj
      have hnd_rest : (rest.map Prod.fst).Nodup :=
        (List.nodup_cons.mp hnd).2
      have hhead : e.1 ∉ rest.map Prod.fst := (List.nodup_cons.mp hnd).1
      simp only [List.foldl_cons]
      cases hpend : get_pending_task_ids s e.1 with
      | nil =>
          have hstep : fesStep s repo_path claude_md business_spec orch₀ e
              = orch₀ := by
            simp [fesStep, hpend]
          rw [hstep]
          obtain ⟨hl, ht, hq, hs'⟩ := ih orch₀ hnd_rest
            (fun e' he' => hdisj e' (List.mem_cons_of_mem e he'))
          refine ⟨?_, ?_, ?_, hs'⟩
          · rw [hl]
            simp [hpend]
          · rw [ht]
            simp [hpend]
          · rw [hq]
            simp [hpend]
      | cons tid tids =>
          have hstep : fesStep s repo_path claude_md business_spec orch₀ e
              = add_team_lead orch₀
                  (fesLead s repo_path claude_md business_spec e.1
                    (tid :: tids)) := by
            simp [fesStep, hpend]
          rw [hstep]
          set lead := fesLead s repo_path claude_md business_spec e.1
            (tid :: tids) with hlead
          have hleads1 : (add_team_lead orch₀ lead).leads
              = orch₀.leads ++ [(e.1, lead)] := by
            simp only [add_team_lead]
            exact dset_append _ _ _ (hdisj e (List.mem_cons_self e rest))
          have hdisj' : ∀ e' ∈ rest,
              dget (add_team_lead orch₀ lead).leads e'.1 = none := by
            intro e' he'
            rw [hleads1, dget_append_left_none _ _ _
              (hdisj e' (List.mem_cons_of_mem e he'))]
            have hne : e.1 ≠ e'.1 := by
              intro hc
              exact hhead (hc ▸ List.mem_map_of_mem Prod.fst he')
            simp [dget, hne]
          obtain ⟨hl, ht, hq, hs'⟩ := ih (add_team_lead orch₀ lead)
            hnd_rest hdisj'
          refine ⟨?_, ?_, ?_, ?_⟩
          · rw [hl, hleads1]
            simp [hpend, hlead, List.append_assoc]
          · rw [ht]
            simp only [add_team_lead, hlead]
            simp [hpend, fesLead, pendingTaskDicts_length]
            omega
          · rw [hq]
            simp only [add_team_lead, hlead]
            simp [hpend, fesLead, pendingTaskDicts_length]
            omega
          · rw [hs']
            simp [add_team_lead]

/-- C2: on a recovered state (unique service keys, task records keyed by
their own id), `from_execution_state` registers exactly one Team Lead per
service with a non-empty pending list — its task list being exactly those
pending ids in order — no lead for fully completed services, and counters
`succeeded = state.succeeded`, `queued = sum of pending counts`,
`total_tasks = state.succeeded + state.failed + queued`.  (The source
would in fact raise before returning: the per-service `TeamLead(...)` call
passes `execution_state=`, which `TeamLead.__init__` does not accept; the
lead construction is therefore modelled by the recorded call `fesLead` —
see the C1 theorem for the signature mismatch.) -/
theorem claim_C2_from_execution_state (s : ExecutionState)
    (repo_path claude_md business_spec : String)
    (hnd : (dkeys s.services).Nodup)
    (hkey : ∀ e ∈ s.tasks, e.2.task_id = e.1) :
    (from_execution_state s repo_path claude_md business_spec).leads
        = (s.services.filter
              (fun e => !(get_pending_task_ids s e.1).isEmpty)).map
            (fun e => (e.1, fesLead s repo_path claude_md business_spec e.1
              (get_pending_task_ids s e.1)))
      ∧ (∀ entry ∈ (from_execution_state s repo_path claude_md
            business_spec).leads,
          entry.2.tasks.map TaskD.id = get_pending_task_ids s entry.1)
      ∧ (from_execution_state s repo_path claude_md
          business_spec).state.succeeded = s.succeeded
      ∧ (from_execution_state s repo_path claude_md
          business_spec).state.queued
          = (s.services.map
              (fun e => (get_pending_task_ids s e.1).length)).sum
      ∧ (from_execution_state s repo_path claude_md
          business_spec).state.total_tasks
          = s.succeeded + s.failed +
            (from_execution_state s repo_path claude_md
              business_spec).state.queued := by
  obtain ⟨hl, ht, hq, hs'⟩ := fes_fold s repo_path claude_md business_spec
    s.services
    { project_id := s.project_id, state := { succeeded := s.succeeded } }
    hnd (fun _ _ => rfl)
  have hleads : (from_execution_state s repo_path claude_md
      business_spec).leads
      = (s.services.filter
            (fun e => !(get_pending_task_ids s e.1).isEmpty)).map
          (fun e => (e.1, fesLead s repo_path claude_md business_spec e.1
            (get_pending_task_ids s e.1))) := by
    simp only [from_execution_state]
    rw [hl]
    rfl
  refine ⟨hleads, ?_, ?_, ?_, ?_⟩
  · intro entry hentry
    rw [hleads] at hentry
    obtain ⟨e, _, rfl⟩ := List.mem_map.mp hentry
    exact pendingTaskDicts_ids s _ hkey
  · simp only [from_execution_state]
    rw [hs']
  · simp only [from_execution_state]
    simpa using hq
  · have ht' := ht
    have hq' := hq
    simp only [OrchestratorState.queued, OrchestratorState.total_tasks] at *
    simp at ht' hq'
    simp only [from_execution_state]
    rw [ht', hq']
    omega

/-- Witness for C2 at the spec's crash-recovery scenario S3: service `auth`
with `t1` succeeded and `t2` pending recovers to one lead with task list
`[t2]` and counters `succeeded=1, queued=1, total=2`. -/
theorem claim_C2_from_execution_state_witness :
    ((from_execution_state
        { project_id := "p",
          tasks := [("t1", { task_id := "t1", title := "a",
                             service_name := "auth",
                             status := TaskStatus.succeeded }),
                    ("t2", { task_id := "t2", title := "b",
                             service_name := "auth" })],
          services := [("auth", { service_name := "auth",
                                  task_ids := ["t1", "t2"],
                                  completed_task_ids := ["t1"] })],
          total_tasks := 2, succeeded := 1, failed := 0, pending := 1 }
        "repo" "conv" "spec").state.queued = 1)
    ∧ ((from_execution_state
        { project_id := "p",
          tasks := [("t1", { task_id := "t1", title := "a",
                             service_name := "auth",
                             status := TaskStatus.succeeded }),
                    ("t2", { task_id := "t2", title := "b",
                             service_name := "auth" })],
          services := [("auth", { service_name := "auth",
                                  task_ids := ["t1", "t2"],
                                  completed_task_ids := ["t1"] })],
          total_tasks := 2, succeeded := 1, failed := 0, pending := 1 }
        "repo" "conv" "spec").state.total_tasks = 2) := by
  have h := claim_C2_from_execution_state
    { project_id := "p",
      tasks := [("t1", { task_id := "t1", title := "a",
                         service_name := "auth",
                         status := TaskStatus.succeeded }),
                ("t2", { task_id := "t2", title := "b",
                         service_name := "auth" })],
      services := [("auth", { service_name := "auth",
                              task_ids := ["t1", "t2"],
                              completed_task_ids := ["t1"] })],
      total_tasks := 2, succeeded := 1, failed := 0, pending := 1 }
    "repo" "conv" "spec" (by decide) (by decide)
  have hq := h.2.2.2.1
  have ht := h.2.2.2.2
  rw [hq] at ht ⊢
  rw [ht]
  refine ⟨by decide, by decide⟩

-- ── Blocker resolution (claim C5) ───────────────────────────

/-- C5 counterexample: resolving the same blocker twice leaves the SECOND
answer, not the first — `resolve_blocker` overwrites `answer`
unconditionally before setting the event. -/
theorem claim_C5_first_answer_counterexample :
    (dget (resolve_blocker
        (resolve_blocker
          [("b1", { blocker_id := "b1", service_name := "auth",
                    question := "which provider?" })]
          "b1" "a1").1
        "b1" "a2").1 "b1").map PendingBlocker.answer = some "a2"
    ∧ ("a2" : String) ≠ "a1" := by
  refine ⟨?_, by decide⟩
  rfl

/-- C5 amended: resolving a registered blocker twice leaves the LAST
answer (the second resolve overwrites the stored answer), while the
release event — set by the first resolve — remains set: no resolve ever
clears an already-set event. -/
theorem claim_C5_last_answer_wins (reg : BlockerRegistry)
    (b a1 a2 : String) (blk : PendingBlocker)
    (h : dget reg b = some blk) :
    dget (resolve_blocker (resolve_blocker reg b a1).1 b a2).1 b
        = some { blk with answer := a2, event_set := true }
      ∧ (resolve_blocker (resolve_blocker reg b a1).1 b a2).2 = true
      ∧ ∀ (reg' : BlockerRegistry) (bid ans b' : String)
          (blk' : PendingBlocker),
          dget reg' b' = some blk' → blk'.event_set = true →
          ∃ blk'', dget (resolve_blocker reg' bid ans).1 b' = some blk''
            ∧ blk''.event_set = true := by
  have h1 : (resolve_blocker reg b a1).1
      = dset reg b { blk with answer := a1, event_set := true } := by
    simp [resolve_blocker, h]
  have h2 : dget (resolve_blocker reg b a1).1 b
      = some { blk with answer := a1, event_set := true } := by
    rw [h1]
    exact dget_dset_self _ _ _
  refine ⟨?_, ?_, ?_⟩
  · rw [h1]
    simp [resolve_blocker, dget_dset_self]
  · rw [h1]
    simp [resolve_blocker, dget_dset_self]
  · intro reg' bid ans b' blk' hb' hev
    cases hbid : dget reg' bid with
    | none => exact ⟨blk', by simpa [resolve_blocker, hbid] using hb', hev⟩
    | some blkb =>
        by_cases hbb : bid = b'
        · subst hbb
          rw [hb'] at hbid
          cases hbid
          refine ⟨{ blk' with answer := ans, event_set := true }, ?_, rfl⟩
          simp only [resolve_blocker, hb']
          exact dget_dset_self _ _ _
        · refine ⟨blk', ?_, hev⟩
          simp only [resolve_blocker, hbid]
          rw [dget_dset_ne _ _ _ _ hbb]
          exact hb'

/-- Witness for the amended C5 at a concrete one-blocker registry. -/
theorem claim_C5_last_answer_wins_witness :
    dget (resolve_blocker
        (resolve_blocker
          [("b1", { blocker_id := "b1", service_name := "auth",
                    question := "q" })]
          "b1" "a1").1
        "b1" "a2").1 "b1"
      = some { blocker_id := "b1", service_name := "auth", question := "q",
               answer := "a2", event_set := true } :=
  (claim_C5_last_answer_wins
    [("b1", { blocker_id := "b1", service_name := "auth",
              question := "q" })]
    "b1" "a1" "a2"
    { blocker_id := "b1", service_name := "auth", question := "q" }
    (by decide)).1

-- ── Sub-agent output truncation (claim C8) ──────────────────

/-- C8 counterexample: a runtime output of 10,001 characters is returned
by `run_code_writer` with its full 10,001-character length — no ≤10,000
truncation happens at the dispatch boundary. -/
theorem claim_C8_truncation_counterexample :
    (run_code_writer
        (Except.ok (String.mk (List.replicate 10001 'x')))
        "wt" "prompt" "conv").output.length = 10001
    ∧ ¬(10001 ≤ 10000) := by
  refine ⟨?_, by omega⟩
  show (String.mk (List.replicate 10001 'x')).length = 10001
  rw [String.mk_length, List.length_replicate]

/-- C8 amended: the dispatcher applies no truncation at all — each stage
returns the runtime's output text verbatim on success and the raised
error's message verbatim on failure, so the output can exceed any bound
(in particular 10,000 characters). -/
theorem claim_C8_no_truncation (text e w p c : String)
    (cmds : List String) :
    run_code_writer (Except.ok text) w p c
        = { success := true, output := text }
      ∧ run_code_writer (Except.error e) w p c
          = { success := false, output := "", error := e }
      ∧ run_unit_tester (Except.ok text) w p c
          = { success := true, output := text }
      ∧ run_unit_tester (Except.error e) w p c
          = { success := false, output := "", error := e }
      ∧ run_qa_tester (Except.ok text) w p cmds
          = { success := true, output := text }
      ∧ run_qa_tester (Except.error e) w p cmds
          = { success := false, output := "", error := e }
      ∧ ∀ bound : Nat, ∃ long : String,
          bound < (run_code_writer (Except.ok long) w p c).output.length := by
  refine ⟨rfl, rfl, rfl, rfl, rfl, rfl, ?_⟩
  intro bound
  refine ⟨String.mk (List.replicate (bound + 1) 'x'), ?_⟩
  show bound < (String.mk (List.replicate (bound + 1) 'x')).length
  rw [String.mk_length, List.length_replicate]
  omega

-- ── Atomic write sequence (claim C9) ────────────────────────

/-- C9 counterexample: the flush of a checkpoint performs no fsync — the
trace of `atomic_json_write` at a concrete target contains no fsync
operation, so it is not the claimed write/fsync/rename sequence. -/
theorem claim_C9_fsync_missing_counterexample :
    ¬ specAtomicSequence { dir := "proj", name := "execution.json" } "doc"
        (atomic_json_write { dir := "proj", name := "execution.json" }
          "tmp123" "doc")
    ∧ hasFsync (atomic_json_write { dir := "proj", name := "execution.json" }
          "tmp123" "doc") = false := by
  constructor
  · rintro ⟨tmp, h | h⟩ <;> simp [atomic_json_write, tmpPath] at h
  · rfl

/-- C9 amended: every flush ensures the target's directory, creates a
temporary file in that same directory, writes the full document into it
and renames it over the target — in that order, with no fsync anywhere in
the sequence. -/
theorem claim_C9_write_then_rename (target : FilePath')
    (stem doc : String) :
    ∃ tmp : String,
      (∃ sfx : String, tmp = target.dir ++ "/" ++ sfx)
        ∧ atomic_json_write target stem doc
            = [FsOp.mkdirParents target.dir, FsOp.createTemp tmp,
               FsOp.writeFile tmp doc,
               FsOp.rename tmp (target.dir ++ "/" ++ target.name)]
        ∧ hasFsync (atomic_json_write target stem doc) = false := by
  refine ⟨tmpPath target stem, ⟨stem ++ ".tmp", ?_⟩, rfl, rfl⟩
  simp [tmpPath, String.append_assoc]

end Mycroft
